import Mathlib

/-!
# Verification of the FCL collision-object / naive broadphase layer

Shallow embedding of `CollisionGeometry` / `CollisionObject`
(collision_object_base.h) and `NaiveCollisionManager`
(broadphase_bruteforce.h).  Scalars (`FCL_REAL` / the template parameter
`S`) are modelled by `ℚ`; the running minimum of the distance queries,
seeded in the source with `std::numeric_limits<S>::max()`, is modelled by
`WithTop ℚ` with `⊤` standing for the maximum representable value.
-/

namespace FCL

/-- 3-d vector of scalars, modelling `Vec3f`. -/
structure Vec3 where
  x : ℚ
  y : ℚ
  z : ℚ
deriving DecidableEq, Repr

namespace Vec3

def add (a b : Vec3) : Vec3 := ⟨a.x + b.x, a.y + b.y, a.z + b.z⟩

def sub (a b : Vec3) : Vec3 := ⟨a.x - b.x, a.y - b.y, a.z - b.z⟩

def dot (a b : Vec3) : ℚ := a.x * b.x + a.y * b.y + a.z * b.z

/-- Squared Euclidean norm. -/
def normSq (a : Vec3) : ℚ := dot a a

def zero : Vec3 := ⟨0, 0, 0⟩

/-- Componentwise order, `a ≤ b` on every axis. -/
def le (a b : Vec3) : Prop := a.x ≤ b.x ∧ a.y ≤ b.y ∧ a.z ≤ b.z

instance (a b : Vec3) : Decidable (le a b) := by
  unfold le; infer_instance

end Vec3

/-- 3×3 matrix (rows), modelling `Matrix3f`.  The quaternion stored in
`Transform3f` is represented through its rotation matrix. -/
structure Mat3 where
  r0 : Vec3
  r1 : Vec3
  r2 : Vec3
deriving DecidableEq, Repr

namespace Mat3

def mulVec (m : Mat3) (v : Vec3) : Vec3 :=
  ⟨Vec3.dot m.r0 v, Vec3.dot m.r1 v, Vec3.dot m.r2 v⟩

/-- The identity rotation. -/
def id3 : Mat3 := ⟨⟨1, 0, 0⟩, ⟨0, 1, 0⟩, ⟨0, 0, 1⟩⟩

/-- A rigid rotation: `mulVec` preserves the squared Euclidean norm. -/
def IsRigid (m : Mat3) : Prop := ∀ v : Vec3, (m.mulVec v).normSq = v.normSq

end Mat3

/-- Modelled from the spec: the rigid-pose type (`Transform3f`, from the
missing header `fcl/transform.h`) "exposing translation, rotation, and an
identity test".  The rotation is stored as a matrix; `t.transform v`
applies the rotation then the translation. -/
structure Transform3f where
  R : Mat3
  T : Vec3
deriving DecidableEq, Repr

namespace Transform3f

/-- Modelled from the spec: applying the rigid pose to a point,
`transform(v) = R·v + T`. -/
def transform (t : Transform3f) (v : Vec3) : Vec3 := (t.R.mulVec v).add t.T

/-- Modelled from the spec: the identity test on the rotation component,
`t.getQuatRotation().isIdentity()`. -/
def rotIsIdentity (t : Transform3f) : Prop := t.R = Mat3.id3

instance (t : Transform3f) : Decidable (rotIsIdentity t) := by
  unfold rotIsIdentity; infer_instance

/-- Modelled from the spec: the identity test on the whole pose,
`t.isIdentity()`. -/
def isIdentity (t : Transform3f) : Prop := t.R = Mat3.id3 ∧ t.T = Vec3.zero

instance (t : Transform3f) : Decidable (isIdentity t) := by
  unfold isIdentity; infer_instance

/-- The identity pose, `t.setIdentity()` target. -/
def identity : Transform3f := ⟨Mat3.id3, Vec3.zero⟩

def setTranslation (t : Transform3f) (v : Vec3) : Transform3f := { t with T := v }

def setRotation (t : Transform3f) (m : Mat3) : Transform3f := { t with R := m }

end Transform3f

/-- Axis-aligned bounding box, modelling `AABB` with fields `min_`, `max_`. -/
structure AABB where
  min_ : Vec3
  max_ : Vec3
deriving DecidableEq, Repr

namespace AABB

/-- Modelled from the spec: `overlap(other) -> boolean` of the bounding-box
collaborator (header `fcl/BV/AABB.h` is not part of this layer): the two
boxes intersect on every axis. -/
def overlap (a b : AABB) : Bool :=
  decide (a.min_.x ≤ b.max_.x) && decide (b.min_.x ≤ a.max_.x) &&
  decide (a.min_.y ≤ b.max_.y) && decide (b.min_.y ≤ a.max_.y) &&
  decide (a.min_.z ≤ b.max_.z) && decide (b.min_.z ≤ a.max_.z)

/-- Separation between the intervals `[lo1, hi1]` and `[lo2, hi2]` on one
axis: zero when they touch or overlap. -/
def axisGap (lo1 hi1 lo2 hi2 : ℚ) : ℚ := max 0 (max (lo2 - hi1) (lo1 - hi2))

/-- Modelled from the spec: `distance(other) -> scalar`, "a symmetric,
admissible lower bound on true shape distance, non-negative, zero when
boxes touch or overlap".  Modelled as the squared Euclidean gap (the sum of
the squared per-axis separations), which keeps the value in `ℚ`; it is
symmetric, non-negative, and zero exactly when the true box distance is. -/
def distance (a b : AABB) : ℚ :=
  (axisGap a.min_.x a.max_.x b.min_.x b.max_.x) *
      (axisGap a.min_.x a.max_.x b.min_.x b.max_.x) +
    (axisGap a.min_.y a.max_.y b.min_.y b.max_.y) *
      (axisGap a.min_.y a.max_.y b.min_.y b.max_.y) +
    (axisGap a.min_.z a.max_.z b.min_.z b.max_.z) *
      (axisGap a.min_.z a.max_.z b.min_.z b.max_.z)

/-- A geometrically meaningful box: `min_ ≤ max_` on every axis. -/
def isValid (a : AABB) : Prop := Vec3.le a.min_ a.max_

instance (a : AABB) : Decidable (isValid a) := by
  unfold isValid; infer_instance

/-- Membership of a point in the box, componentwise. -/
def containsPt (a : AABB) (p : Vec3) : Prop := Vec3.le a.min_ p ∧ Vec3.le p a.max_

instance (a : AABB) (p : Vec3) : Decidable (containsPt a p) := by
  unfold containsPt; infer_instance

end AABB

/-- `CollisionGeometry`: the shape descriptor.  The pure virtual
`computeLocalAABB()` is shape specific; its result is modelled by the
`shapeCenter` / `shapeRadius` / `shapeBox` fields (what the concrete
override would compute from the shape data), and `localAABBCount` records
how many times `computeLocalAABB` has been invoked on this instance. -/
structure CollisionGeometry where
  aabb_center : Vec3
  aabb_radius : ℚ
  aabb_local : AABB
  cost_density : ℚ
  threshold_occupied : ℚ
  threshold_free : ℚ
  shapeCenter : Vec3
  shapeRadius : ℚ
  shapeBox : AABB
  localAABBCount : Nat
deriving DecidableEq, Repr

namespace CollisionGeometry

/-- Modelled from the spec: the mandatory shape-specific local-bound
computation (pure virtual in the source), "producing the bounding-sphere
parameters and the bounding box in the shape's own frame"; the invocation
counter records each call. -/
def computeLocalAABB (g : CollisionGeometry) : CollisionGeometry :=
  { g with
    aabb_center := g.shapeCenter
    aabb_radius := g.shapeRadius
    aabb_local := g.shapeBox
    localAABBCount := g.localAABBCount + 1 }

def isOccupied (g : CollisionGeometry) : Prop := g.cost_density ≥ g.threshold_occupied

def isFree (g : CollisionGeometry) : Prop := g.cost_density ≤ g.threshold_free

end CollisionGeometry

/-- `CollisionObject`: a geometry (shared in the source through
`boost::shared_ptr`; shared mutation is modelled by threading the geometry
state through the constructor), a pose `t` and the cached world bound
`aabb`. -/
structure CollisionObject where
  cgeom : CollisionGeometry
  t : Transform3f
  aabb : AABB
deriving DecidableEq, Repr

namespace CollisionObject

/-- `getAABB()`: return the cached world bound. -/
def getAABB (o : CollisionObject) : AABB := o.aabb

/-- `computeAABB()`: if the rotation of the pose is the identity the cached
bound becomes the geometry's local bound unchanged; otherwise the local
bounding-sphere center is moved by the full pose and expanded by the radius
along all three axes. -/
def computeAABB (o : CollisionObject) : CollisionObject :=
  if o.t.rotIsIdentity then
    { o with aabb := o.cgeom.aabb_local }
  else
    let center := o.t.transform o.cgeom.aabb_center
    let delta : Vec3 := ⟨o.cgeom.aabb_radius, o.cgeom.aabb_radius, o.cgeom.aabb_radius⟩
    { o with aabb := ⟨center.sub delta, center.add delta⟩ }

/-- The two-argument constructor
`CollisionObject(cgeom, tf)`: invokes `cgeom->computeLocalAABB()` then
`computeAABB()`.  Returns the object together with the geometry state after
the call, so that a caller sharing the geometry can thread it on. -/
def construct (g : CollisionGeometry) (tf : Transform3f) :
    CollisionObject × CollisionGeometry :=
  let g1 := g.computeLocalAABB
  let o := computeAABB { cgeom := g1, t := tf, aabb := ⟨Vec3.zero, Vec3.zero⟩ }
  (o, g1)

/-- `setTranslation`: writes only the translation of the pose. -/
def setTranslation (o : CollisionObject) (v : Vec3) : CollisionObject :=
  { o with t := o.t.setTranslation v }

/-- `setRotation`: writes only the rotation of the pose. -/
def setRotation (o : CollisionObject) (m : Mat3) : CollisionObject :=
  { o with t := o.t.setRotation m }

/-- `setQuatRotation`: writes only the rotation of the pose (the quaternion
is modelled through its rotation matrix). -/
def setQuatRotation (o : CollisionObject) (m : Mat3) : CollisionObject :=
  { o with t := o.t.setRotation m }

/-- `setTransform(R, T)` / `setTransform(tf)`: replaces the whole pose. -/
def setTransform (o : CollisionObject) (tf : Transform3f) : CollisionObject :=
  { o with t := tf }

/-- `setIdentityTransform()`: resets the pose to the identity. -/
def setIdentityTransform (o : CollisionObject) : CollisionObject :=
  { o with t := Transform3f.identity }

end CollisionObject

/-!
## NaiveCollisionManager

The manager is templated over the scalar in the source and stores
`std::list<CollisionObject<S>*> objs`; registry entries are modelled by an
arbitrary type `α` with decidable equality (standing for the pointers) and
`aabbOf : α → AABB` models the dereference `obj->getAABB()`.  The
callbacks carry the opaque `cdata` as an explicit state `σ`; the distance
callback receives the running minimum by reference, so it returns the
possibly updated value.  Each query is embedded as a function that also
returns the trace of callback invocations (and, for the self queries, the
trace of examined pairs), which is what the claims speak about.
-/

namespace NaiveCollisionManager

/-- `registerObject`: `objs.push_back(obj)`. -/
def registerObject {α : Type} (objs : List α) (obj : α) : List α := objs ++ [obj]

/-- `registerObjects`: copy the batch onto the back of the registry. -/
def registerObjects {α : Type} (objs : List α) (other_objs : List α) : List α :=
  objs ++ other_objs

/-- `unregisterObject`: `objs.remove(obj)` removes every element equal to
`obj`. -/
def unregisterObject {α : Type} [DecidableEq α] (objs : List α) (obj : α) : List α :=
  objs.filter (fun y => y ≠ obj)

/-- `clear()`: empty the registry. -/
def clearRegistry {α : Type} : List α := []

/-- `size()`. -/
def size {α : Type} (objs : List α) : Nat := objs.length

/-- `CollisionCallBack`: `(a, b, cdata) -> stop`, with the mutation of
`cdata` made explicit. -/
def CollisionCallback (α σ : Type) : Type := α → α → σ → Bool × σ

/-- `DistanceCallBack`: `(a, b, cdata, dist&) -> stop`; returns the new
`cdata` and the possibly tightened running minimum. -/
def DistanceCallback (α σ : Type) : Type :=
  α → α → σ → WithTop ℚ → Bool × σ × WithTop ℚ

/-- Loop body of `collide(obj, cdata, callback)`: invoke the callback on
`(obj, obj2)` for every registry entry `obj2`, returning at the first
`true`.  Returns the final state and the invocation trace. -/
def collideObjLoop {α σ : Type} (cb : CollisionCallback α σ) (obj : α) :
    List α → σ → σ × List (α × α)
  | [], s => (s, [])
  | o2 :: tl, s =>
    let r := cb obj o2 s
    if r.1 then (r.2, [(obj, o2)])
    else
      let rest := collideObjLoop cb obj tl r.2
      (rest.1, (obj, o2) :: rest.2)

/-- `collide(obj, cdata, callback)`: empty-registry check, then the linear
scan. -/
def collideObj {α σ : Type} (cb : CollisionCallback α σ) (obj : α)
    (objs : List α) (s : σ) : σ × List (α × α) :=
  if size objs = 0 then (s, []) else collideObjLoop cb obj objs s

/-- Loop body of `distance(obj, cdata, callback)`: the callback runs only
when the bound distance is below the running minimum, which the callback
may update. -/
def distanceObjLoop {α σ : Type} (aabbOf : α → AABB) (cb : DistanceCallback α σ)
    (obj : α) : List α → σ → WithTop ℚ → σ × WithTop ℚ × List (α × α)
  | [], s, m => (s, m, [])
  | o2 :: tl, s, m =>
    if ((AABB.distance (aabbOf obj) (aabbOf o2) : ℚ) : WithTop ℚ) < m then
      let r := cb obj o2 s m
      if r.1 then (r.2.1, r.2.2, [(obj, o2)])
      else
        let rest := distanceObjLoop aabbOf cb obj tl r.2.1 r.2.2
        (rest.1, rest.2.1, (obj, o2) :: rest.2.2)
    else distanceObjLoop aabbOf cb obj tl s m

/-- `distance(obj, cdata, callback)`: empty-registry check, running minimum
seeded at the maximum representable value, then the linear scan. -/
def distanceObj {α σ : Type} (aabbOf : α → AABB) (cb : DistanceCallback α σ)
    (obj : α) (objs : List α) (s : σ) : σ × WithTop ℚ × List (α × α) :=
  if size objs = 0 then (s, ⊤, []) else distanceObjLoop aabbOf cb obj objs s ⊤

/-- Result of a self- or cross-query run: whether a callback returned
`true`, the final state, the pairs on which the callback was invoked, and
the pairs examined by the loops (reached by the iteration, before the
bound test). -/
structure CollideRun (α σ : Type) where
  stopped : Bool
  state : σ
  invoked : List (α × α)
  examined : List (α × α)
deriving Repr

/-- Inner loop of self `collide(cdata, callback)`: `it2` scans the tail
after `it1`; the callback runs only on overlapping bounds. -/
def selfCollideInner {α σ : Type} (aabbOf : α → AABB) (cb : CollisionCallback α σ)
    (o1 : α) : List α → σ → CollideRun α σ
  | [], s => ⟨false, s, [], []⟩
  | o2 :: tl, s =>
    if AABB.overlap (aabbOf o1) (aabbOf o2) then
      let r := cb o1 o2 s
      if r.1 then ⟨true, r.2, [(o1, o2)], [(o1, o2)]⟩
      else
        let rest := selfCollideInner aabbOf cb o1 tl r.2
        ⟨rest.stopped, rest.state, (o1, o2) :: rest.invoked, (o1, o2) :: rest.examined⟩
    else
      let rest := selfCollideInner aabbOf cb o1 tl s
      ⟨rest.stopped, rest.state, rest.invoked, (o1, o2) :: rest.examined⟩

/-- Outer loop of self `collide(cdata, callback)`: `it1` scans the whole
registry; a `true` from the callback aborts both loops. -/
def selfCollideOuter {α σ : Type} (aabbOf : α → AABB) (cb : CollisionCallback α σ) :
    List α → σ → CollideRun α σ
  | [], s => ⟨false, s, [], []⟩
  | o1 :: tl, s =>
    let r := selfCollideInner aabbOf cb o1 tl s
    if r.stopped then r
    else
      let rest := selfCollideOuter aabbOf cb tl r.state
      ⟨rest.stopped, rest.state, r.invoked ++ rest.invoked, r.examined ++ rest.examined⟩

/-- Self `collide(cdata, callback)`: empty-registry check, then the
triangular double loop. -/
def selfCollide {α σ : Type} (aabbOf : α → AABB) (cb : CollisionCallback α σ)
    (objs : List α) (s : σ) : CollideRun α σ :=
  if size objs = 0 then ⟨false, s, [], []⟩ else selfCollideOuter aabbOf cb objs s

/-- Result of a distance-query run, with the final running minimum. -/
structure DistRun (α σ : Type) where
  stopped : Bool
  state : σ
  minDist : WithTop ℚ
  invoked : List (α × α)
deriving Repr

/-- Inner loop of self `distance(cdata, callback)`. -/
def selfDistanceInner {α σ : Type} (aabbOf : α → AABB) (cb : DistanceCallback α σ)
    (o1 : α) : List α → σ → WithTop ℚ → DistRun α σ
  | [], s, m => ⟨false, s, m, []⟩
  | o2 :: tl, s, m =>
    if ((AABB.distance (aabbOf o1) (aabbOf o2) : ℚ) : WithTop ℚ) < m then
      let r := cb o1 o2 s m
      if r.1 then ⟨true, r.2.1, r.2.2, [(o1, o2)]⟩
      else
        let rest := selfDistanceInner aabbOf cb o1 tl r.2.1 r.2.2
        ⟨rest.stopped, rest.state, rest.minDist, (o1, o2) :: rest.invoked⟩
    else selfDistanceInner aabbOf cb o1 tl s m

/-- Outer loop of self `distance(cdata, callback)`. -/
def selfDistanceOuter {α σ : Type} (aabbOf : α → AABB) (cb : DistanceCallback α σ) :
    List α → σ → WithTop ℚ → DistRun α σ
  | [], s, m => ⟨false, s, m, []⟩
  | o1 :: tl, s, m =>
    let r := selfDistanceInner aabbOf cb o1 tl s m
    if r.stopped then r
    else
      let rest := selfDistanceOuter aabbOf cb tl r.state r.minDist
      ⟨rest.stopped, rest.state, rest.minDist, r.invoked ++ rest.invoked⟩

/-- Self `distance(cdata, callback)`: empty-registry check, running minimum
seeded at the maximum representable value, triangular double loop. -/
def selfDistance {α σ : Type} (aabbOf : α → AABB) (cb : DistanceCallback α σ)
    (objs : List α) (s : σ) : DistRun α σ :=
  if size objs = 0 then ⟨false, s, ⊤, []⟩ else selfDistanceOuter aabbOf cb objs s ⊤

/-- Inner loop of cross `collide(other_manager, cdata, callback)`: `obj1`
against every entry of the other registry. -/
def crossCollideInner {α σ : Type} (aabbOf : α → AABB) (cb : CollisionCallback α σ)
    (o1 : α) : List α → σ → CollideRun α σ
  | [], s => ⟨false, s, [], []⟩
  | o2 :: tl, s =>
    if AABB.overlap (aabbOf o1) (aabbOf o2) then
      let r := cb o1 o2 s
      if r.1 then ⟨true, r.2, [(o1, o2)], [(o1, o2)]⟩
      else
        let rest := crossCollideInner aabbOf cb o1 tl r.2
        ⟨rest.stopped, rest.state, (o1, o2) :: rest.invoked, (o1, o2) :: rest.examined⟩
    else
      let rest := crossCollideInner aabbOf cb o1 tl s
      ⟨rest.stopped, rest.state, rest.invoked, (o1, o2) :: rest.examined⟩

/-- Outer loop of cross `collide`: full Cartesian product of the two
registries. -/
def crossCollideOuter {α σ : Type} (aabbOf : α → AABB) (cb : CollisionCallback α σ) :
    List α → List α → σ → CollideRun α σ
  | [], _, s => ⟨false, s, [], []⟩
  | o1 :: tl, other, s =>
    let r := crossCollideInner aabbOf cb o1 other s
    if r.stopped then r
    else
      let rest := crossCollideOuter aabbOf cb tl other r.state
      ⟨rest.stopped, rest.state, r.invoked ++ rest.invoked, r.examined ++ rest.examined⟩

/-- Cross `collide(other_manager, cdata, callback)`.  The pointer test
`this == other_manager` of the source is modelled by the flag `same`; when
it is set the two registries are the same list and the query redirects to
the self form. -/
def crossCollide {α σ : Type} (aabbOf : α → AABB) (cb : CollisionCallback α σ)
    (same : Bool) (objs other : List α) (s : σ) : CollideRun α σ :=
  if size objs = 0 ∨ size other = 0 then ⟨false, s, [], []⟩
  else if same then selfCollide aabbOf cb objs s
  else crossCollideOuter aabbOf cb objs other s

/-- Inner loop of cross `distance(other_manager, cdata, callback)`. -/
def crossDistanceInner {α σ : Type} (aabbOf : α → AABB) (cb : DistanceCallback α σ)
    (o1 : α) : List α → σ → WithTop ℚ → DistRun α σ
  | [], s, m => ⟨false, s, m, []⟩
  | o2 :: tl, s, m =>
    if ((AABB.distance (aabbOf o1) (aabbOf o2) : ℚ) : WithTop ℚ) < m then
      let r := cb o1 o2 s m
      if r.1 then ⟨true, r.2.1, r.2.2, [(o1, o2)]⟩
      else
        let rest := crossDistanceInner aabbOf cb o1 tl r.2.1 r.2.2
        ⟨rest.stopped, rest.state, rest.minDist, (o1, o2) :: rest.invoked⟩
    else crossDistanceInner aabbOf cb o1 tl s m

/-- Outer loop of cross `distance`. -/
def crossDistanceOuter {α σ : Type} (aabbOf : α → AABB) (cb : DistanceCallback α σ) :
    List α → List α → σ → WithTop ℚ → DistRun α σ
  | [], _, s, m => ⟨false, s, m, []⟩
  | o1 :: tl, other, s, m =>
    let r := crossDistanceInner aabbOf cb o1 other s m
    if r.stopped then r
    else
      let rest := crossDistanceOuter aabbOf cb tl other r.state r.minDist
      ⟨rest.stopped, rest.state, rest.minDist, r.invoked ++ rest.invoked⟩

/-- Cross `distance(other_manager, cdata, callback)`, with the pointer test
modelled by `same` as in `crossCollide`. -/
def crossDistance {α σ : Type} (aabbOf : α → AABB) (cb : DistanceCallback α σ)
    (same : Bool) (objs other : List α) (s : σ) : DistRun α σ :=
  if size objs = 0 ∨ size other = 0 then ⟨false, s, ⊤, []⟩
  else if same then selfDistance aabbOf cb objs s
  else crossDistanceOuter aabbOf cb objs other s ⊤

/-- The strict upper triangle of the pair matrix of a list: every pair of
positions `i < j`, in the order the triangular double loop visits them. -/
def allUpperPairs {α : Type} : List α → List (α × α)
  | [] => []
  | x :: tl => (tl.map (fun y => (x, y))) ++ allUpperPairs tl

/-- One registry mutation, for stating the register/unregister invariant. -/
inductive ManagerOp (α : Type) where
  | reg : α → ManagerOp α
  | regs : List α → ManagerOp α
  | unreg : α → ManagerOp α
  | clearAll : ManagerOp α

/-- Apply one mutation to the registry. -/
def applyOp {α : Type} [DecidableEq α] (objs : List α) : ManagerOp α → List α
  | .reg x => registerObject objs x
  | .regs xs => registerObjects objs xs
  | .unreg x => unregisterObject objs x
  | .clearAll => clearRegistry

/-- Run a sequence of mutations from a given registry. -/
def runOpsFrom {α : Type} [DecidableEq α] (objs : List α) : List (ManagerOp α) → List α
  | [] => objs
  | op :: tl => runOpsFrom (applyOp objs op) tl

/-- Run a sequence of mutations from the empty manager. -/
def runOps {α : Type} [DecidableEq α] (ops : List (ManagerOp α)) : List α :=
  runOpsFrom [] ops

/-- Number of occurrences registered by one mutation. -/
def regCount {α : Type} : ManagerOp α → Nat
  | .reg _ => 1
  | .regs xs => xs.length
  | _ => 0

/-- Total occurrences registered along a sequence. -/
def totalRegistered {α : Type} : List (ManagerOp α) → Nat
  | [] => 0
  | op :: tl => regCount op + totalRegistered tl

/-- Number of occurrences one mutation removes from the given registry. -/
def removeCount {α : Type} [DecidableEq α] (objs : List α) : ManagerOp α → Nat
  | .unreg x => objs.count x
  | .clearAll => objs.length
  | _ => 0

/-- Total occurrences removed along a sequence started at a registry. -/
def totalRemovedFrom {α : Type} [DecidableEq α] (objs : List α) :
    List (ManagerOp α) → Nat
  | [] => 0
  | op :: tl => removeCount objs op + totalRemovedFrom (applyOp objs op) tl

end NaiveCollisionManager

/-!
## Shared concrete instances for witnesses and counterexamples
-/

/-- A unit box `[-1,1]³`. -/
def boxUnit : AABB := ⟨⟨-1, -1, -1⟩, ⟨1, 1, 1⟩⟩

/-- A concrete geometry: unit bounding sphere at the origin, local bound
`[-1,1]³`. -/
def geomEx : CollisionGeometry :=
  { aabb_center := ⟨0, 0, 0⟩
    aabb_radius := 1
    aabb_local := boxUnit
    cost_density := 1
    threshold_occupied := 1
    threshold_free := 0
    shapeCenter := ⟨0, 0, 0⟩
    shapeRadius := 1
    shapeBox := boxUnit
    localAABBCount := 1 }

/-- A concrete object: `geomEx` under identity rotation with translation
`(10, 0, 0)`. -/
def objShifted : CollisionObject :=
  { cgeom := geomEx, t := ⟨Mat3.id3, ⟨10, 0, 0⟩⟩, aabb := boxUnit }

/-!
## Claim theorems
-/

/-- C4: if the rotation component of the pose is the identity, then
`computeAABB()` sets the cached world bound exactly equal to the geometry's
local bound `aabb_local`, unchanged, regardless of the translation; in
particular this holds under a fully identity pose. -/
theorem C4_computeAABB_identity_rotation (o : CollisionObject)
    (h : o.t.rotIsIdentity) :
    (o.computeAABB).getAABB = o.cgeom.aabb_local ∧
    (o.t.isIdentity → (o.computeAABB).getAABB = o.cgeom.aabb_local) := by
  refine ⟨?_, fun _ => ?_⟩ <;>
    simp [CollisionObject.computeAABB, CollisionObject.getAABB, h]

/-- C4 witness: the identity-rotation path on a concrete object whose
translation is `(10,0,0)`. -/
theorem C4_computeAABB_identity_rotation_witness :
    (objShifted.computeAABB).getAABB = objShifted.cgeom.aabb_local :=
  (C4_computeAABB_identity_rotation objShifted (by decide)).1

/-- C9: every pose setter mutates only the pose: the cached world bound
returned by `getAABB()` and the geometry state are unchanged. -/
theorem C9_pose_setters_preserve_bound_and_geometry (o : CollisionObject)
    (v : Vec3) (m : Mat3) (q : Mat3) (tf : Transform3f) :
    ((o.setTranslation v).getAABB = o.getAABB ∧ (o.setTranslation v).cgeom = o.cgeom) ∧
    ((o.setRotation m).getAABB = o.getAABB ∧ (o.setRotation m).cgeom = o.cgeom) ∧
    ((o.setQuatRotation q).getAABB = o.getAABB ∧ (o.setQuatRotation q).cgeom = o.cgeom) ∧
    ((o.setTransform tf).getAABB = o.getAABB ∧ (o.setTransform tf).cgeom = o.cgeom) ∧
    ((o.setIdentityTransform).getAABB = o.getAABB ∧ (o.setIdentityTransform).cgeom = o.cgeom) :=
  ⟨⟨rfl, rfl⟩, ⟨rfl, rfl⟩, ⟨rfl, rfl⟩, ⟨rfl, rfl⟩, rfl, rfl⟩

open NaiveCollisionManager in
/-- C5: invoking the cross-manager `collide` / `distance` with the manager
itself as the other manager (the pointer test `this == other_manager`
succeeding on the same registry) produces exactly the result of the
corresponding self-query form: same callback invocations, same final state
and running minimum. -/
theorem C5_cross_query_with_self_equals_self_query {α σ : Type}
    (aabbOf : α → AABB) (cbC : CollisionCallback α σ) (cbD : DistanceCallback α σ)
    (objs : List α) (s : σ) :
    crossCollide aabbOf cbC true objs objs s = selfCollide aabbOf cbC objs s ∧
    crossDistance aabbOf cbD true objs objs s = selfDistance aabbOf cbD objs s := by
  constructor
  · by_cases h : size objs = 0 <;> simp [crossCollide, selfCollide, h]
  · by_cases h : size objs = 0 <;> simp [crossDistance, selfDistance, h]

namespace NaiveCollisionManager

/-- Removing every occurrence of `x` and the occurrences of `x` account for
the whole length. -/
theorem length_filter_ne_add_count {α : Type} [DecidableEq α] (l : List α) (x : α) :
    (l.filter (fun y => y ≠ x)).length + l.count x = l.length := by
  induction l with
  | nil => simp
  | cons a tl ih =>
    by_cases h : a = x
    · subst h
      simp only [List.filter_cons, List.count_cons] at ih ⊢
      simp at ih ⊢
      omega
    · simp only [List.filter_cons, List.count_cons] at ih ⊢
      simp [h] at ih ⊢
      omega

/-- Length accounting for a run of registry mutations from any start. -/
theorem runOpsFrom_length {α : Type} [DecidableEq α] (ops : List (ManagerOp α)) :
    ∀ objs : List α,
      (runOpsFrom objs ops).length + totalRemovedFrom objs ops =
        objs.length + totalRegistered ops := by
  induction ops with
  | nil => intro objs; simp [runOpsFrom, totalRemovedFrom, totalRegistered]
  | cons op tl ih =>
    intro objs
    cases op with
    | reg x =>
      have h := ih (registerObject objs x)
      simp only [runOpsFrom, totalRemovedFrom, totalRegistered, applyOp,
        removeCount, regCount, registerObject, List.length_append,
        List.length_singleton] at h ⊢
      omega
    | regs xs =>
      have h := ih (registerObjects objs xs)
      simp only [runOpsFrom, totalRemovedFrom, totalRegistered, applyOp,
        removeCount, regCount, registerObjects, List.length_append] at h ⊢
      omega
    | unreg x =>
      have h := ih (unregisterObject objs x)
      have hcnt := length_filter_ne_add_count objs x
      simp only [runOpsFrom, totalRemovedFrom, totalRegistered, applyOp,
        removeCount, regCount, unregisterObject] at h hcnt ⊢
      omega
    | clearAll =>
      have h := ih (clearRegistry (α := α))
      simp only [runOpsFrom, totalRemovedFrom, totalRegistered, applyOp,
        removeCount, regCount, clearRegistry, List.length_nil] at h ⊢
      omega

end NaiveCollisionManager

open NaiveCollisionManager in
/-- C7: starting from the empty manager, `size()` equals registered
occurrences minus removed occurrences for any sequence of
register/registerObjects/unregister/clear calls (stated additively to
avoid truncated subtraction); moreover `registerObject` appends exactly one
occurrence, duplicates are tracked independently, and
`unregisterObject x` removes every occurrence of `x` (and only those). -/
theorem C7_registry_size_invariant {α : Type} [DecidableEq α]
    (ops : List (ManagerOp α)) (l : List α) (x y : α) (hxy : y ≠ x) :
    size (runOps ops) + totalRemovedFrom ([] : List α) ops = totalRegistered ops ∧
    size (registerObject l x) = size l + 1 ∧
    (registerObject l x).count x = l.count x + 1 ∧
    (unregisterObject l x).count x = 0 ∧
    (unregisterObject l x).count y = l.count y := by
  refine ⟨?_, ?_, ?_, ?_, ?_⟩
  · have h := runOpsFrom_length ops ([] : List α)
    simpa [runOps, size] using h
  · simp [registerObject, size]
  · simp [registerObject]
  · simp only [unregisterObject, List.count_eq_zero]
    intro hmem
    have := List.of_mem_filter hmem
    simp at this
  · simp only [unregisterObject]
    rw [List.count_filter]
    simp [hxy]

open NaiveCollisionManager in
/-- C7 witness: the invariant evaluated on a concrete mutation sequence
over `Nat`: register 1 twice, register the batch `[2, 3]`, unregister 1
(removing both occurrences), then clear and register 5. -/
theorem C7_registry_size_invariant_witness :
    size (runOps [ManagerOp.reg 1, ManagerOp.reg 1, ManagerOp.regs [2, 3],
        ManagerOp.unreg 1, ManagerOp.clearAll, ManagerOp.reg (5 : Nat)]) +
      totalRemovedFrom ([] : List Nat)
        [ManagerOp.reg 1, ManagerOp.reg 1, ManagerOp.regs [2, 3],
        ManagerOp.unreg 1, ManagerOp.clearAll, ManagerOp.reg (5 : Nat)] =
      totalRegistered
        [ManagerOp.reg 1, ManagerOp.reg 1, ManagerOp.regs [2, 3],
        ManagerOp.unreg 1, ManagerOp.clearAll, ManagerOp.reg (5 : Nat)] ∧
    (unregisterObject [1, 2, 1, 3] (1 : Nat)).count 1 = 0 :=
  ⟨(C7_registry_size_invariant
      [ManagerOp.reg 1, ManagerOp.reg 1, ManagerOp.regs [2, 3],
        ManagerOp.unreg 1, ManagerOp.clearAll, ManagerOp.reg (5 : Nat)]
      [1, 2, 1, 3] 1 2 (by decide)).1,
   (C7_registry_size_invariant
      [ManagerOp.reg 1, ManagerOp.reg 1, ManagerOp.regs [2, 3],
        ManagerOp.unreg 1, ManagerOp.clearAll, ManagerOp.reg (5 : Nat)]
      [1, 2, 1, 3] 1 2 (by decide)).2.2.2.1⟩

namespace NaiveCollisionManager

/-- The bound test the pairwise collide loops apply before a callback. -/
def overlapPair {α : Type} (aabbOf : α → AABB) (p : α × α) : Bool :=
  AABB.overlap (aabbOf p.1) (aabbOf p.2)

/-- With a callback that never stops, the inner self-collide loop examines
the whole tail. -/
theorem selfCollideInner_nostop {α σ : Type} (aabbOf : α → AABB)
    (cb : CollisionCallback α σ) (h : ∀ a b t, (cb a b t).1 = false) (o1 : α) :
    ∀ (tl : List α) (s : σ),
      (selfCollideInner aabbOf cb o1 tl s).stopped = false ∧
      (selfCollideInner aabbOf cb o1 tl s).examined = tl.map (fun y => (o1, y)) := by
  intro tl
  induction tl with
  | nil => intro s; exact ⟨rfl, rfl⟩
  | cons o2 tl ih =>
    intro s
    simp only [selfCollideInner]
    cases hov : AABB.overlap (aabbOf o1) (aabbOf o2) with
    | true =>
      simp only [hov, if_true, h o1 o2 s, List.map_cons]
      simp only [Bool.false_eq_true, if_false]
      exact ⟨(ih _).1, by rw [(ih _).2]⟩
    | false =>
      simp only [hov, Bool.false_eq_true, if_false, List.map_cons]
      exact ⟨(ih _).1, by rw [(ih _).2]⟩

/-- With a callback that never stops, the self-collide double loop examines
exactly the strict upper triangle of the registry. -/
theorem selfCollideOuter_nostop {α σ : Type} (aabbOf : α → AABB)
    (cb : CollisionCallback α σ) (h : ∀ a b t, (cb a b t).1 = false) :
    ∀ (l : List α) (s : σ),
      (selfCollideOuter aabbOf cb l s).stopped = false ∧
      (selfCollideOuter aabbOf cb l s).examined = allUpperPairs l := by
  intro l
  induction l with
  | nil => intro s; exact ⟨rfl, rfl⟩
  | cons o1 tl ih =>
    intro s
    have hin := selfCollideInner_nostop aabbOf cb h o1 tl s
    simp only [selfCollideOuter, hin.1, Bool.false_eq_true, if_false, allUpperPairs]
    refine ⟨(ih _).1, ?_⟩
    rw [hin.2, (ih _).2]

/-- In each self-collide inner loop, the callback is invoked exactly on the
examined pairs that pass the bound test. -/
theorem selfCollideInner_invoked_eq_filter {α σ : Type} (aabbOf : α → AABB)
    (cb : CollisionCallback α σ) (o1 : α) :
    ∀ (tl : List α) (s : σ),
      (selfCollideInner aabbOf cb o1 tl s).invoked =
        (selfCollideInner aabbOf cb o1 tl s).examined.filter (overlapPair aabbOf) := by
  intro tl
  induction tl with
  | nil => intro s; rfl
  | cons o2 tl ih =>
    intro s
    cases hov : AABB.overlap (aabbOf o1) (aabbOf o2) with
    | true =>
      cases hstop : (cb o1 o2 s).1 with
      | true => simp [selfCollideInner, hov, hstop, overlapPair]
      | false => simp [selfCollideInner, hov, hstop, overlapPair, ih]
    | false => simp [selfCollideInner, hov, overlapPair, ih]

/-- In the self-collide double loop, the callback is invoked exactly on the
examined pairs that pass the bound test. -/
theorem selfCollideOuter_invoked_eq_filter {α σ : Type} (aabbOf : α → AABB)
    (cb : CollisionCallback α σ) :
    ∀ (l : List α) (s : σ),
      (selfCollideOuter aabbOf cb l s).invoked =
        (selfCollideOuter aabbOf cb l s).examined.filter (overlapPair aabbOf) := by
  intro l
  induction l with
  | nil => intro s; rfl
  | cons o1 tl ih =>
    intro s
    simp only [selfCollideOuter]
    cases hstop : (selfCollideInner aabbOf cb o1 tl s).stopped with
    | true =>
      simp only [if_true]
      exact selfCollideInner_invoked_eq_filter aabbOf cb o1 tl s
    | false =>
      simp only [Bool.false_eq_true, if_false, List.filter_append]
      rw [selfCollideInner_invoked_eq_filter aabbOf cb o1 tl s, ih]

/-- A stopped self-collide inner loop ends at the invocation that returned
`true`: the invocation trace is non-empty and the last examined pair is the
last invoked pair. -/
theorem selfCollideInner_stop_last {α σ : Type} (aabbOf : α → AABB)
    (cb : CollisionCallback α σ) (o1 : α) :
    ∀ (tl : List α) (s : σ),
      (selfCollideInner aabbOf cb o1 tl s).stopped = true →
      (selfCollideInner aabbOf cb o1 tl s).invoked ≠ [] ∧
      (selfCollideInner aabbOf cb o1 tl s).examined ≠ [] ∧
      (selfCollideInner aabbOf cb o1 tl s).examined.getLast? =
        (selfCollideInner aabbOf cb o1 tl s).invoked.getLast? := by
  intro tl
  induction tl with
  | nil => intro s hstop; exact absurd hstop (by simp [selfCollideInner])
  | cons o2 tl ih =>
    intro s
    simp only [selfCollideInner]
    cases hov : AABB.overlap (aabbOf o1) (aabbOf o2) with
    | true =>
      cases hcb : (cb o1 o2 s).1 with
      | true =>
        intro _
        simp
      | false =>
        simp only [hov, if_true, hcb, Bool.false_eq_true, if_false]
        intro hstop
        obtain ⟨h1, h2, h3⟩ := ih (cb o1 o2 s).2 hstop
        refine ⟨by simp, by simp, ?_⟩
        cases hi : (selfCollideInner aabbOf cb o1 tl (cb o1 o2 s).2).invoked with
        | nil => exact absurd hi h1
        | cons a l =>
          cases he : (selfCollideInner aabbOf cb o1 tl (cb o1 o2 s).2).examined with
          | nil => exact absurd he h2
          | cons b l2 =>
            rw [List.getLast?_cons_cons, List.getLast?_cons_cons]
            rw [hi, he] at h3
            exact h3
    | false =>
      simp only [hov, Bool.false_eq_true, if_false]
      intro hstop
      obtain ⟨h1, h2, h3⟩ := ih s hstop
      refine ⟨h1, by simp, ?_⟩
      cases he : (selfCollideInner aabbOf cb o1 tl s).examined with
      | nil => exact absurd he h2
      | cons b l2 =>
        rw [List.getLast?_cons_cons]
        rw [he] at h3
        exact h3

/-- A stopped self-collide run ends at the invocation that returned `true`. -/
theorem selfCollideOuter_stop_last {α σ : Type} (aabbOf : α → AABB)
    (cb : CollisionCallback α σ) :
    ∀ (l : List α) (s : σ),
      (selfCollideOuter aabbOf cb l s).stopped = true →
      (selfCollideOuter aabbOf cb l s).invoked ≠ [] ∧
      (selfCollideOuter aabbOf cb l s).examined ≠ [] ∧
      (selfCollideOuter aabbOf cb l s).examined.getLast? =
        (selfCollideOuter aabbOf cb l s).invoked.getLast? := by
  intro l
  induction l with
  | nil => intro s hstop; exact absurd hstop (by simp [selfCollideOuter])
  | cons o1 tl ih =>
    intro s
    simp only [selfCollideOuter]
    cases hstop : (selfCollideInner aabbOf cb o1 tl s).stopped with
    | true =>
      simp only [if_true]
      intro _
      exact selfCollideInner_stop_last aabbOf cb o1 tl s hstop
    | false =>
      simp only [Bool.false_eq_true, if_false]
      intro hrest
      obtain ⟨h1, h2, h3⟩ := ih (selfCollideInner aabbOf cb o1 tl s).state hrest
      refine ⟨by simp [h1], by simp [h2], ?_⟩
      rw [List.getLast?_append, List.getLast?_append, h3,
        Option.or_of_isSome (List.getLast?_isSome.mpr h1),
        Option.or_of_isSome (List.getLast?_isSome.mpr h1)]

/-- The multiset of unordered pairs in the strict upper triangle is
invariant under permutation of the list. -/
theorem allUpperPairs_sym2_perm {α : Type} {l l2 : List α} (h : l.Perm l2) :
    ((allUpperPairs l).map (fun p => Sym2.mk p)).Perm
      ((allUpperPairs l2).map (fun p => Sym2.mk p)) := by
  induction h with
  | nil => exact List.Perm.refl _
  | cons x h ih =>
    simp only [allUpperPairs, List.map_append, List.map_map]
    exact (h.map _).append ih
  | swap x y l =>
    simp only [allUpperPairs, List.map_cons, List.map_append, List.map_map,
      List.cons_append]
    rw [show Sym2.mk (y, x) = Sym2.mk (x, y) from Sym2.eq_swap]
    refine List.Perm.cons _ ?_
    rw [← List.append_assoc, ← List.append_assoc]
    exact (List.perm_append_comm).append_right _
  | trans _ _ ih1 ih2 => exact ih1.trans ih2

/-- The inner Cartesian loop of cross collide is the same computation as
the inner loop of self collide. -/
theorem crossCollideInner_eq_self {α σ : Type} (aabbOf : α → AABB)
    (cb : CollisionCallback α σ) (o1 : α) :
    ∀ (l : List α) (s : σ),
      crossCollideInner aabbOf cb o1 l s = selfCollideInner aabbOf cb o1 l s := by
  intro l
  induction l with
  | nil => intro s; rfl
  | cons o2 tl ih => intro s; simp only [crossCollideInner, selfCollideInner, ih]

/-- In the cross-collide Cartesian double loop, the callback is invoked
exactly on the examined pairs that pass the bound test. -/
theorem crossCollideOuter_invoked_eq_filter {α σ : Type} (aabbOf : α → AABB)
    (cb : CollisionCallback α σ) (other : List α) :
    ∀ (l : List α) (s : σ),
      (crossCollideOuter aabbOf cb l other s).invoked =
        (crossCollideOuter aabbOf cb l other s).examined.filter (overlapPair aabbOf) := by
  intro l
  induction l with
  | nil => intro s; rfl
  | cons o1 tl ih =>
    intro s
    simp only [crossCollideOuter, crossCollideInner_eq_self]
    cases hstop : (selfCollideInner aabbOf cb o1 other s).stopped with
    | true =>
      simp only [if_true]
      exact selfCollideInner_invoked_eq_filter aabbOf cb o1 other s
    | false =>
      simp only [Bool.false_eq_true, if_false, List.filter_append]
      rw [selfCollideInner_invoked_eq_filter, ih]

/-- With a callback that never stops, the single-object collide scan
invokes the callback on every registry entry, in order, with no bound
test. -/
theorem collideObjLoop_nostop {α σ : Type} (cb : CollisionCallback α σ) (obj : α)
    (h : ∀ a b t, (cb a b t).1 = false) :
    ∀ (l : List α) (s : σ),
      (collideObjLoop cb obj l s).2 = l.map (fun o => (obj, o)) := by
  intro l
  induction l with
  | nil => intro s; rfl
  | cons o2 tl ih => intro s; simp [collideObjLoop, h, ih]

end NaiveCollisionManager

open NaiveCollisionManager in
/-- C6: the self-collide query examines exactly the strict upper triangle
of the registry's pair matrix — each unordered pair of distinct positions
once, the multiset of unordered pairs being invariant under registration
order — when no callback stops it; the callback is invoked exactly on the
examined pairs whose bounds overlap; and a `true` return terminates the
whole double traversal at that invocation (the trace of examined pairs
ends at the last invoked pair). -/
theorem C6_self_collide_upper_triangle {α σ : Type} (aabbOf : α → AABB)
    (cb : CollisionCallback α σ) (objs objs2 : List α) (s : σ)
    (hperm : objs.Perm objs2) :
    ((∀ a b t, (cb a b t).1 = false) →
      (selfCollide aabbOf cb objs s).examined = allUpperPairs objs) ∧
    ((allUpperPairs objs).map (fun p => Sym2.mk p)).Perm
      ((allUpperPairs objs2).map (fun p => Sym2.mk p)) ∧
    (selfCollide aabbOf cb objs s).invoked =
      (selfCollide aabbOf cb objs s).examined.filter (overlapPair aabbOf) ∧
    ((selfCollide aabbOf cb objs s).stopped = true →
      (selfCollide aabbOf cb objs s).invoked ≠ [] ∧
      (selfCollide aabbOf cb objs s).examined.getLast? =
        (selfCollide aabbOf cb objs s).invoked.getLast?) := by
  refine ⟨?_, allUpperPairs_sym2_perm hperm, ?_, ?_⟩
  · intro h
    by_cases hz : size objs = 0
    · have hnil : objs = [] := List.length_eq_zero.mp hz
      subst hnil
      simp [selfCollide, allUpperPairs, size]
    · simp only [selfCollide, hz, if_false]
      exact (selfCollideOuter_nostop aabbOf cb h objs s).2
  · by_cases hz : size objs = 0
    · simp [selfCollide, hz]
    · simp only [selfCollide, hz, if_false]
      exact selfCollideOuter_invoked_eq_filter aabbOf cb objs s
  · intro hstop
    by_cases hz : size objs = 0
    · rw [selfCollide, if_pos hz] at hstop
      exact absurd hstop (by simp)
    · rw [selfCollide, if_neg hz] at hstop ⊢
      obtain ⟨h1, _, h3⟩ := selfCollideOuter_stop_last aabbOf cb objs s hstop
      exact ⟨h1, h3⟩

/-- Box `[4,6] × [-1,1] × [-1,1]`, disjoint from `boxUnit`. -/
def boxFar : AABB := ⟨⟨4, -1, -1⟩, ⟨6, 1, 1⟩⟩

/-- A collision callback over bare boxes that never stops and counts its
invocations in the accumulator. -/
def cbCountAABB : NaiveCollisionManager.CollisionCallback AABB Nat :=
  fun _ _ n => (false, n + 1)

open NaiveCollisionManager in
/-- C6 witness: the upper-triangle property evaluated on the two-object
registry of the spec's first scenario. -/
theorem C6_self_collide_upper_triangle_witness :
    (selfCollide id cbCountAABB [boxUnit, boxFar] 0).examined =
      allUpperPairs [boxUnit, boxFar] :=
  (C6_self_collide_upper_triangle id cbCountAABB [boxUnit, boxFar]
      [boxFar, boxUnit] 0 (List.Perm.swap boxFar boxUnit [])).1
    (fun _ _ _ => rfl)

open NaiveCollisionManager in
/-- C2 counterexample: the single-object `collide(obj, cdata, callback)`
form applies no bound test — on a registry holding only `boxFar`, a query
for `boxUnit` invokes the callback on the pair `(boxUnit, boxFar)` even
though the two boxes do not overlap, so not every offered pair has been
pruned by a bound test. -/
theorem C2_counterexample_single_object_not_pruned :
    (boxUnit, boxFar) ∈
      (collideObj (fun (_ _ : AABB) (u : Unit) => (false, u)) boxUnit [boxFar] ()).2 ∧
    AABB.overlap boxUnit boxFar = false := by
  constructor
  · simp [collideObj, collideObjLoop, size]
  · decide

open NaiveCollisionManager in
/-- C2 (amended): the self-query and cross-manager collide forms invoke
the callback only on pairs whose world bounds overlap; the single-object
form applies no bound test and, when the callback never stops, offers
every registry entry to the callback. -/
theorem C2_amended_pruning_by_query_form {α σ : Type} (aabbOf : α → AABB)
    (cb : CollisionCallback α σ) (obj : α) (objs other : List α) (same : Bool)
    (s : σ) :
    (∀ p ∈ (selfCollide aabbOf cb objs s).invoked, overlapPair aabbOf p = true) ∧
    (∀ p ∈ (crossCollide aabbOf cb same objs other s).invoked,
      overlapPair aabbOf p = true) ∧
    ((∀ a b t, (cb a b t).1 = false) →
      (collideObj cb obj objs s).2 = objs.map (fun o => (obj, o))) := by
  refine ⟨?_, ?_, ?_⟩
  · intro p hp
    by_cases hz : size objs = 0
    · rw [selfCollide, if_pos hz] at hp
      exact absurd hp (by simp)
    · rw [selfCollide, if_neg hz, selfCollideOuter_invoked_eq_filter] at hp
      exact List.of_mem_filter hp
  · intro p hp
    rw [crossCollide] at hp
    by_cases hz : size objs = 0 ∨ size other = 0
    · rw [if_pos hz] at hp
      exact absurd hp (by simp)
    · rw [if_neg hz] at hp
      cases same with
      | true =>
        simp only [if_true] at hp
        by_cases hz2 : size objs = 0
        · rw [selfCollide, if_pos hz2] at hp
          exact absurd hp (by simp)
        · rw [selfCollide, if_neg hz2, selfCollideOuter_invoked_eq_filter] at hp
          exact List.of_mem_filter hp
      | false =>
        simp only [Bool.false_eq_true, if_false] at hp
        rw [crossCollideOuter_invoked_eq_filter] at hp
        exact List.of_mem_filter hp
  · intro h
    rw [collideObj]
    by_cases hz : size objs = 0
    · rw [if_pos hz]
      have hnil : objs = [] := List.length_eq_zero.mp hz
      subst hnil
      rfl
    · rw [if_neg hz]
      exact collideObjLoop_nostop cb obj h objs s

open NaiveCollisionManager in
/-- C2 witness: the amended claim's single-object conjunct evaluated on a
one-entry registry with a counting callback. -/
theorem C2_amended_pruning_by_query_form_witness :
    (collideObj cbCountAABB boxUnit [boxFar] 0).2 =
      [boxFar].map (fun o => (boxUnit, o)) :=
  (C2_amended_pruning_by_query_form id cbCountAABB boxUnit [boxFar] [] false 0).2.2
    (fun _ _ _ => rfl)

/-- The bound distance of a valid box to itself is zero. -/
theorem AABB.distance_self_eq_zero (a : AABB) (h : a.isValid) :
    AABB.distance a a = 0 := by
  obtain ⟨hx, hy, hz⟩ := h
  simp only [AABB.distance, AABB.axisGap, max_self]
  rw [max_eq_left (by linarith), max_eq_left (by linarith),
    max_eq_left (by linarith)]
  norm_num

namespace NaiveCollisionManager

/-- If the running minimum stays positive (the callback never stops and
only ever writes positive values), the single-object distance scan reaches
the query object's own entry and invokes the callback there. -/
theorem distanceObjLoop_self_mem {α σ : Type} (aabbOf : α → AABB)
    (cb : DistanceCallback α σ) (x : α)
    (hstop : ∀ a b t m, (cb a b t m).1 = false)
    (hpos : ∀ a b t m, 0 < (cb a b t m).2.2)
    (hval : (aabbOf x).isValid) :
    ∀ (l : List α) (s : σ) (m : WithTop ℚ), 0 < m → x ∈ l →
      (x, x) ∈ (distanceObjLoop aabbOf cb x l s m).2.2 := by
  intro l
  induction l with
  | nil => intro s m _ hmem; exact absurd hmem (by simp)
  | cons o2 tl ih =>
    intro s m hm hmem
    rcases List.mem_cons.mp hmem with heq | htl
    · subst heq
      have hd : ((AABB.distance (aabbOf x) (aabbOf x) : ℚ) : WithTop ℚ) < m := by
        rw [AABB.distance_self_eq_zero (aabbOf x) hval, WithTop.coe_zero]
        exact hm
      simp only [distanceObjLoop, hd, if_true, hstop x x s m,
        Bool.false_eq_true, if_false]
      simp
    · simp only [distanceObjLoop]
      by_cases hd : ((AABB.distance (aabbOf x) (aabbOf o2) : ℚ) : WithTop ℚ) < m
      · simp only [hd, if_true, hstop x o2 s m, Bool.false_eq_true, if_false]
        have hrec := ih (cb x o2 s m).2.1 (cb x o2 s m).2.2 (hpos x o2 s m) htl
        simp [hrec]
      · simp only [hd, if_false]
        exact ih s m hm htl

end NaiveCollisionManager

open NaiveCollisionManager in
/-- C10: single-object queries do not exclude the query object from the
registry scan.  If `x` is registered then `collide(x, cdata, callback)`
invokes the callback on the degenerate pair `(x, x)` when no invocation
stops the scan; `distance(x, cdata, callback)` invokes it on `(x, x)` when
additionally the running minimum is still positive when `x`'s entry is
reached (guaranteed here by a callback that only writes positive values,
the minimum having been seeded at the maximum representable value). -/
theorem C10_single_object_query_reaches_self {α σ : Type} (aabbOf : α → AABB)
    (cbC : CollisionCallback α σ) (cbD : DistanceCallback α σ) (x : α)
    (objs : List α) (s : σ)
    (hC : ∀ a b t, (cbC a b t).1 = false)
    (hDstop : ∀ a b t m, (cbD a b t m).1 = false)
    (hDpos : ∀ a b t m, 0 < (cbD a b t m).2.2)
    (hval : (aabbOf x).isValid)
    (hmem : x ∈ objs) :
    (x, x) ∈ (collideObj cbC x objs s).2 ∧
    (x, x) ∈ (distanceObj aabbOf cbD x objs s).2.2 := by
  have hz : ¬ size objs = 0 := by
    simp only [size]
    intro hlen
    rw [List.length_eq_zero.mp hlen] at hmem
    exact absurd hmem (by simp)
  constructor
  · rw [collideObj, if_neg hz, collideObjLoop_nostop cbC x hC objs s]
    exact List.mem_map.mpr ⟨x, hmem, rfl⟩
  · rw [distanceObj, if_neg hz]
    refine distanceObjLoop_self_mem aabbOf cbD x hDstop hDpos hval objs s ⊤ ?_ hmem
    rw [← WithTop.coe_zero]
    exact WithTop.coe_lt_top 0

/-- A distance callback over bare boxes that never stops and always writes
the positive bound `5` into the running minimum. -/
def cbDistFive : NaiveCollisionManager.DistanceCallback AABB Nat :=
  fun _ _ n _ => (false, n + 1, ((5 : ℚ) : WithTop ℚ))

open NaiveCollisionManager in
/-- C10 witness: a registry containing `boxUnit` itself behind `boxFar`;
both single-object queries reach the degenerate pair. -/
theorem C10_single_object_query_reaches_self_witness :
    (boxUnit, boxUnit) ∈
      (collideObj cbCountAABB boxUnit [boxFar, boxUnit] 0).2 ∧
    (boxUnit, boxUnit) ∈
      (distanceObj id cbDistFive boxUnit [boxFar, boxUnit] 0).2.2 :=
  C10_single_object_query_reaches_self id cbCountAABB cbDistFive boxUnit
    [boxFar, boxUnit] 0 (fun _ _ _ => rfl) (fun _ _ _ _ => rfl)
    (fun _ _ _ _ => by
      show (0 : WithTop ℚ) < ((5 : ℚ) : WithTop ℚ)
      rw [← WithTop.coe_zero]
      exact WithTop.coe_lt_coe.mpr (by norm_num))
    (by decide) (by decide)

namespace NaiveCollisionManager

/-- Folding `min` from an arbitrary seed is the `min` of the seed and the
fold from `⊤`. -/
theorem foldr_min_withTop (a : WithTop ℚ) (l : List (WithTop ℚ)) :
    l.foldr min a = min a (l.foldr min ⊤) := by
  induction l with
  | nil => simp
  | cons d ds ih =>
    simp only [List.foldr_cons, ih]
    rw [min_left_comm]

/-- The fold of `min` over an appended list. -/
theorem foldr_min_withTop_append (l1 l2 : List (WithTop ℚ)) :
    (l1 ++ l2).foldr min ⊤ = min (l1.foldr min ⊤) (l2.foldr min ⊤) := by
  induction l1 with
  | nil => simp
  | cons d ds ih => simp [ih, min_assoc]

/-- The bound distance of a pair, as the running minimum sees it. -/
def pairDist {α : Type} (aabbOf : α → AABB) (p : α × α) : WithTop ℚ :=
  ((AABB.distance (aabbOf p.1) (aabbOf p.2) : ℚ) : WithTop ℚ)

/-- A distance callback that never stops and writes each offered pair's
bound distance into the running minimum turns the inner self-distance loop
into a running minimum over the candidate distances. -/
theorem selfDistanceInner_min {α σ : Type} (aabbOf : α → AABB)
    (cb : DistanceCallback α σ) (o1 : α)
    (hcb : ∀ a b t m, (cb a b t m).1 = false ∧
      (cb a b t m).2.2 = pairDist aabbOf (a, b)) :
    ∀ (tl : List α) (s : σ) (m : WithTop ℚ),
      (selfDistanceInner aabbOf cb o1 tl s m).stopped = false ∧
      (selfDistanceInner aabbOf cb o1 tl s m).minDist =
        min m ((tl.map (fun y => pairDist aabbOf (o1, y))).foldr min ⊤) := by
  intro tl
  induction tl with
  | nil => intro s m; exact ⟨rfl, by simp [selfDistanceInner]⟩
  | cons o2 tl ih =>
    intro s m
    simp only [selfDistanceInner, List.map_cons, List.foldr_cons]
    by_cases hd : ((AABB.distance (aabbOf o1) (aabbOf o2) : ℚ) : WithTop ℚ) < m
    · simp only [hd, if_true, (hcb o1 o2 s m).1, Bool.false_eq_true, if_false]
      obtain ⟨h1, h2⟩ := ih (cb o1 o2 s m).2.1 (cb o1 o2 s m).2.2
      refine ⟨h1, ?_⟩
      rw [h2, (hcb o1 o2 s m).2]
      have hdm : pairDist aabbOf (o1, o2) ≤ m := le_of_lt hd
      exact (min_eq_right (le_trans (min_le_left _ _) hdm)).symm
    · simp only [hd, if_false]
      obtain ⟨h1, h2⟩ := ih s m
      refine ⟨h1, ?_⟩
      rw [h2]
      have hmd : m ≤ pairDist aabbOf (o1, o2) := le_of_not_lt hd
      have hmid :
          min m (min (pairDist aabbOf (o1, o2))
              ((tl.map (fun y => pairDist aabbOf (o1, y))).foldr min ⊤)) =
            min m ((tl.map (fun y => pairDist aabbOf (o1, y))).foldr min ⊤) := by
        rw [min_left_comm]
        exact min_eq_right (le_trans (min_le_left _ _) hmd)
      exact hmid.symm

/-- With the same callback, the self-distance double loop computes the
running minimum over every upper-triangle pair distance. -/
theorem selfDistanceOuter_min {α σ : Type} (aabbOf : α → AABB)
    (cb : DistanceCallback α σ)
    (hcb : ∀ a b t m, (cb a b t m).1 = false ∧
      (cb a b t m).2.2 = pairDist aabbOf (a, b)) :
    ∀ (l : List α) (s : σ) (m : WithTop ℚ),
      (selfDistanceOuter aabbOf cb l s m).stopped = false ∧
      (selfDistanceOuter aabbOf cb l s m).minDist =
        min m (((allUpperPairs l).map (pairDist aabbOf)).foldr min ⊤) := by
  intro l
  induction l with
  | nil => intro s m; exact ⟨rfl, by simp [selfDistanceOuter, allUpperPairs]⟩
  | cons o1 tl ih =>
    intro s m
    obtain ⟨hin1, hin2⟩ := selfDistanceInner_min aabbOf cb o1 hcb tl s m
    simp only [selfDistanceOuter, hin1, Bool.false_eq_true, if_false,
      allUpperPairs, List.map_append, List.map_map]
    obtain ⟨h1, h2⟩ := ih (selfDistanceInner aabbOf cb o1 tl s m).state
      (selfDistanceInner aabbOf cb o1 tl s m).minDist
    refine ⟨h1, ?_⟩
    rw [h2, hin2, foldr_min_withTop_append]
    rw [min_assoc]
    rfl

end NaiveCollisionManager

open NaiveCollisionManager in
/-- C3 counterexample: with a callback that never stops and never tightens
the running minimum, the self-distance query over the two disjoint boxes
`boxUnit` and `boxFar` finishes with the running minimum still at the
maximum representable value, not at the true minimum pairwise bound
distance `9`. -/
theorem C3_counterexample_untouched_minimum :
    (selfDistance id (fun (_ _ : AABB) (u : Unit) m => (false, u, m))
        [boxUnit, boxFar] ()).minDist = ⊤ ∧
    ((allUpperPairs [boxUnit, boxFar]).map (pairDist id)).foldr min ⊤ ≠ ⊤ ∧
    (selfDistance id (fun (_ _ : AABB) (u : Unit) m => (false, u, m))
        [boxUnit, boxFar] ()).minDist ≠
      ((allUpperPairs [boxUnit, boxFar]).map (pairDist id)).foldr min ⊤ := by
  refine ⟨by decide, by decide, by decide⟩

open NaiveCollisionManager in
/-- C3 (amended): for a registry with at least two entries, if the distance
callback never signals stop and, whenever invoked, writes the offered
pair's bound distance into the running minimum, then when self-distance
returns the running minimum equals the true minimum pairwise bound
distance over all unordered pairs of registered objects. -/
theorem C3_amended_self_distance_final_minimum {α σ : Type} (aabbOf : α → AABB)
    (cb : DistanceCallback α σ) (objs : List α) (s : σ)
    (hlen : 2 ≤ objs.length)
    (hcb : ∀ a b t m, (cb a b t m).1 = false ∧
      (cb a b t m).2.2 = pairDist aabbOf (a, b)) :
    (selfDistance aabbOf cb objs s).minDist =
      ((allUpperPairs objs).map (pairDist aabbOf)).foldr min ⊤ := by
  have hz : ¬ size objs = 0 := by
    simp only [size]
    omega
  rw [selfDistance, if_neg hz]
  obtain ⟨_, h2⟩ := selfDistanceOuter_min aabbOf cb hcb objs s ⊤
  rw [h2]
  exact min_eq_right le_top

/-- A distance callback over bare boxes that never stops and records the
offered pair's bound distance as the new running minimum. -/
def cbDistTighten : NaiveCollisionManager.DistanceCallback AABB Unit :=
  fun a b u _ => (false, u, ((AABB.distance a b : ℚ) : WithTop ℚ))

open NaiveCollisionManager in
/-- C3 witness: the amended claim evaluated on the two-box registry; the
final running minimum is the distance of the only pair. -/
theorem C3_amended_self_distance_final_minimum_witness :
    (selfDistance id cbDistTighten [boxUnit, boxFar] ()).minDist =
      ((allUpperPairs [boxUnit, boxFar]).map (pairDist id)).foldr min ⊤ :=
  C3_amended_self_distance_final_minimum id cbDistTighten [boxUnit, boxFar] ()
    (by decide) (fun _ _ _ _ => ⟨rfl, rfl⟩)

/-- `geomEx` with its local bound not yet computed. -/
def geomFresh : CollisionGeometry := { geomEx with localAABBCount := 0 }

/-- C8 counterexample: every constructor calls `computeLocalAABB()`
unconditionally, so constructing a second Object from a geometry whose
local bound has already been computed (invocation counter 1 after the
first construction) invokes it again: the counter reads 2, not 1. -/
theorem C8_counterexample_second_construction_recomputes :
    ((CollisionObject.construct geomFresh Transform3f.identity).2).localAABBCount = 1 ∧
    ((CollisionObject.construct
        (CollisionObject.construct geomFresh Transform3f.identity).2
        Transform3f.identity).2).localAABBCount = 2 ∧
    (2 : Nat) ≠ 1 :=
  ⟨rfl, rfl, by decide⟩

/-- `computeAABB()` writes only the cached bound: the geometry reference
is untouched on both paths. -/
theorem CollisionObject.computeAABB_cgeom (o : CollisionObject) :
    (o.computeAABB).cgeom = o.cgeom := by
  rw [CollisionObject.computeAABB]
  split <;> rfl

/-- C8 (amended): every Object construction invokes the geometry's
`computeLocalAABB()` exactly once more, whether or not the local bound was
already computed — the invocation counter increments by one per
construction — and the constructed object carries the freshly recomputed
geometry (the local bound is computed before first use). -/
theorem C8_amended_construction_always_invokes_computeLocalAABB
    (g : CollisionGeometry) (tf : Transform3f) :
    ((CollisionObject.construct g tf).2).localAABBCount = g.localAABBCount + 1 ∧
    (CollisionObject.construct g tf).1.cgeom = g.computeLocalAABB :=
  ⟨rfl, CollisionObject.computeAABB_cgeom _⟩

/-- If a point's squared coordinates sum below `r * r`, every coordinate
lies within `[-r, r]`. -/
theorem sphere_component_bounds (ux uy uz r : ℚ) (hr : 0 ≤ r)
    (h : ux * ux + uy * uy + uz * uz ≤ r * r) :
    (-r ≤ ux ∧ ux ≤ r) ∧ (-r ≤ uy ∧ uy ≤ r) ∧ (-r ≤ uz ∧ uz ≤ r) := by
  refine ⟨⟨?_, ?_⟩, ⟨?_, ?_⟩, ⟨?_, ?_⟩⟩ <;>
    nlinarith [mul_self_nonneg ux, mul_self_nonneg uy, mul_self_nonneg uz,
      mul_self_nonneg (ux + r), mul_self_nonneg (ux - r),
      mul_self_nonneg (uy + r), mul_self_nonneg (uy - r),
      mul_self_nonneg (uz + r), mul_self_nonneg (uz - r)]

/-- C1 counterexample: `objShifted` has a non-identity pose (identity
rotation, translation `(10,0,0)`), and the origin lies inside its local
bounding sphere, yet after `computeAABB()` the cached world bound — the
untranslated local bound, since the rotation is the identity — does not
contain the pose image `(10,0,0)` of that sphere point. -/
theorem C1_counterexample_identity_rotation_translation :
    ¬ objShifted.t.isIdentity ∧
    Vec3.normSq (Vec3.sub ⟨0, 0, 0⟩ objShifted.cgeom.aabb_center) ≤
      objShifted.cgeom.aabb_radius * objShifted.cgeom.aabb_radius ∧
    ¬ AABB.containsPt ((objShifted.computeAABB).getAABB)
        (objShifted.t.transform ⟨0, 0, 0⟩) := by
  refine ⟨?_, ?_, ?_⟩
  · intro h
    exact absurd h.2 (by decide)
  · norm_num [Vec3.normSq, Vec3.dot, Vec3.sub, objShifted, geomEx]
  · intro hmem
    have hbox : (objShifted.computeAABB).getAABB = boxUnit := rfl
    rw [hbox] at hmem
    have hx := hmem.2.1
    norm_num [Transform3f.transform, Mat3.mulVec, Vec3.dot, Vec3.add,
      objShifted, geomEx, Mat3.id3, boxUnit, Vec3.le] at hx

/-- C1 (amended): for every object whose pose's rotation component is not
the identity (so `computeAABB()` takes the conservative bounding-sphere
path) and is a rigid rotation, and whose bounding radius is non-negative,
the recomputed world bound contains the image under the full pose of every
point of the local bounding sphere. -/
theorem C1_amended_conservative_bound_contains_transformed_sphere
    (o : CollisionObject) (p : Vec3)
    (hrot : ¬ o.t.rotIsIdentity)
    (hrigid : o.t.R.IsRigid)
    (hr : 0 ≤ o.cgeom.aabb_radius)
    (hp : Vec3.normSq (p.sub o.cgeom.aabb_center) ≤
      o.cgeom.aabb_radius * o.cgeom.aabb_radius) :
    AABB.containsPt ((o.computeAABB).getAABB) (o.t.transform p) := by
  have hnorm := hrigid (p.sub o.cgeom.aabb_center)
  simp only [Mat3.mulVec, Vec3.normSq, Vec3.dot, Vec3.sub] at hnorm hp
  rw [CollisionObject.computeAABB, if_neg hrot]
  simp only [CollisionObject.getAABB, AABB.containsPt, Vec3.le,
    Transform3f.transform, Mat3.mulVec, Vec3.dot, Vec3.add, Vec3.sub]
  have hsum :
      ((o.t.R.r0.x * p.x + o.t.R.r0.y * p.y + o.t.R.r0.z * p.z) -
          (o.t.R.r0.x * o.cgeom.aabb_center.x + o.t.R.r0.y * o.cgeom.aabb_center.y +
            o.t.R.r0.z * o.cgeom.aabb_center.z)) *
        ((o.t.R.r0.x * p.x + o.t.R.r0.y * p.y + o.t.R.r0.z * p.z) -
          (o.t.R.r0.x * o.cgeom.aabb_center.x + o.t.R.r0.y * o.cgeom.aabb_center.y +
            o.t.R.r0.z * o.cgeom.aabb_center.z)) +
      ((o.t.R.r1.x * p.x + o.t.R.r1.y * p.y + o.t.R.r1.z * p.z) -
          (o.t.R.r1.x * o.cgeom.aabb_center.x + o.t.R.r1.y * o.cgeom.aabb_center.y +
            o.t.R.r1.z * o.cgeom.aabb_center.z)) *
        ((o.t.R.r1.x * p.x + o.t.R.r1.y * p.y + o.t.R.r1.z * p.z) -
          (o.t.R.r1.x * o.cgeom.aabb_center.x + o.t.R.r1.y * o.cgeom.aabb_center.y +
            o.t.R.r1.z * o.cgeom.aabb_center.z)) +
      ((o.t.R.r2.x * p.x + o.t.R.r2.y * p.y + o.t.R.r2.z * p.z) -
          (o.t.R.r2.x * o.cgeom.aabb_center.x + o.t.R.r2.y * o.cgeom.aabb_center.y +
            o.t.R.r2.z * o.cgeom.aabb_center.z)) *
        ((o.t.R.r2.x * p.x + o.t.R.r2.y * p.y + o.t.R.r2.z * p.z) -
          (o.t.R.r2.x * o.cgeom.aabb_center.x + o.t.R.r2.y * o.cgeom.aabb_center.y +
            o.t.R.r2.z * o.cgeom.aabb_center.z)) ≤
      o.cgeom.aabb_radius * o.cgeom.aabb_radius := by
    refine le_trans (le_of_eq ?_) hp
    linear_combination hnorm
  obtain ⟨⟨h0l, h0u⟩, ⟨h1l, h1u⟩, h2l, h2u⟩ :=
    sphere_component_bounds _ _ _ _ hr hsum
  refine ⟨⟨?_, ?_, ?_⟩, ?_, ?_, ?_⟩ <;> linarith

/-- Rotation by a quarter turn about the `z` axis. -/
def rotZ : Mat3 := ⟨⟨0, -1, 0⟩, ⟨1, 0, 0⟩, ⟨0, 0, 1⟩⟩

/-- `geomEx` posed under `rotZ` with translation `(10, 0, 0)`. -/
def objRot : CollisionObject :=
  { cgeom := geomEx, t := ⟨rotZ, ⟨10, 0, 0⟩⟩, aabb := boxUnit }

/-- C1 witness: the conservative path evaluated on an object with a
quarter-turn rotation and translation `(10,0,0)`, at the sphere point
`(1,0,0)`. -/
theorem C1_amended_conservative_bound_contains_transformed_sphere_witness :
    AABB.containsPt ((objRot.computeAABB).getAABB)
      (objRot.t.transform ⟨1, 0, 0⟩) :=
  C1_amended_conservative_bound_contains_transformed_sphere objRot ⟨1, 0, 0⟩
    (by decide)
    (by
      intro v
      simp only [objRot, rotZ, Mat3.mulVec, Vec3.normSq, Vec3.dot]
      ring)
    (by norm_num [objRot, geomEx])
    (by norm_num [objRot, geomEx, Vec3.normSq, Vec3.dot, Vec3.sub])

end FCL
